import Mathlib

/-!
Verification of the cargo-semver utility (src/main.rs, src/model.rs).

The development shallowly embeds the program: the `Version` value type with
its parser, formatter and three bump operations, and the `main` orchestrator
as a function from the command-line arguments and a `World` of external
collaborator outcomes to a trace of observable events plus a result.
Rust `u64` values are embedded as `Nat`; arithmetic that can overflow is
taken modulo `2 ^ 64` (the wrapping semantics of a release build), and the
`u64` width bound appears explicitly in the string parser.
Strings are embedded as `List Char`.
-/

/-- The `u64` width bound: `2 ^ 64`. -/
def U64 : Nat := 2 ^ 64

/-- `struct Version { major: u64, minor: u64, patch: u64 }` (main.rs lines 29-34).
Fields are `Nat`; a value corresponding to a Rust `Version` has all fields
below `U64`. -/
structure Version where
  major : Nat
  minor : Nat
  patch : Nat
deriving DecidableEq

/-- `Version::patch_version` (main.rs lines 75-81): `patch + 1`, an unchecked
`u64` addition, hence reduced modulo `2 ^ 64`. -/
def Version.patch_version (v : Version) : Version :=
  { major := v.major, minor := v.minor, patch := (v.patch + 1) % U64 }

/-- `Version::minor_version` (main.rs lines 83-89). -/
def Version.minor_version (v : Version) : Version :=
  { major := v.major, minor := (v.minor + 1) % U64, patch := 0 }

/-- `Version::major_version` (main.rs lines 91-97). -/
def Version.major_version (v : Version) : Version :=
  { major := (v.major + 1) % U64, minor := 0, patch := 0 }

/-- The component a parse error refers to. -/
inductive Component where
  | major
  | minor
  | patch
deriving DecidableEq

/-- The two shapes of error produced by `Version::from_str`: a missing
segment ("Unable to find ... version in ...") or a segment that does not
parse as `u64` ("unable to parse ... version into u64"). -/
inductive ParseErr where
  | missing (c : Component)
  | badInt (c : Component)
deriving DecidableEq

/-- The Rust `split` on the dot character over a list of characters: always yields at least
one segment; an input without dots is a single segment; each dot afterwards
separates a further (possibly empty) segment. -/
def splitDot : List Char → List (List Char)
  | [] => [[]]
  | c :: rest =>
    if c = '.' then [] :: splitDot rest
    else
      match splitDot rest with
      | [] => [[c]]
      | g :: gs => (c :: g) :: gs

/-- The value of a single decimal digit character, `none` for any other
character. -/
def charDigit (c : Char) : Option Nat :=
  if 48 ≤ c.toNat ∧ c.toNat ≤ 57 then some (c.toNat - 48) else none

/-- Accumulate the decimal value of a run of digit characters left to right,
failing on the first non-digit. -/
def digitsVal : List Char → Nat → Option Nat
  | [], acc => some acc
  | c :: rest, acc =>
    match charDigit c with
    | some d => digitsVal rest (acc * 10 + d)
    | none => none

/-- Rust unsigned integer parsing accepts one optional leading `+`. -/
def stripPlus : List Char → List Char
  | [] => []
  | c :: rest => if c = '+' then rest else c :: rest

/-- `<u64 as FromStr>::from_str`: an optional leading `+`, then a nonempty
run of decimal digits whose value fits in 64 bits.  The source checks
overflow digit by digit with checked arithmetic; since the accumulator is
monotone in each step, checking the final value against `2 ^ 64` accepts and
rejects exactly the same strings, with the same value. -/
def parseU64 (s : List Char) : Option Nat :=
  match stripPlus s with
  | [] => none
  | c :: rest =>
    match digitsVal (c :: rest) 0 with
    | some v => if v < U64 then some v else none
    | none => none

/-- `Version::from_str` (main.rs lines 39-65): split on `'.'`, draw three
segments from the iterator (further segments are never requested), parse
each as `u64`. -/
def Version.from_str (s : List Char) : Except ParseErr Version :=
  match splitDot s with
  | [] => .error (.missing .major)
  | p1 :: rest1 =>
    match parseU64 p1 with
    | none => .error (.badInt .major)
    | some major =>
      match rest1 with
      | [] => .error (.missing .minor)
      | p2 :: rest2 =>
        match parseU64 p2 with
        | none => .error (.badInt .minor)
        | some minor =>
          match rest2 with
          | [] => .error (.missing .patch)
          | p3 :: _ =>
            match parseU64 p3 with
            | none => .error (.badInt .patch)
            | some patch => .ok ⟨major, minor, patch⟩

/-- One digit rendered as a character, `d` expected below 10. -/
def digitChar (d : Nat) : Char := Char.ofNat (48 + d)

/-- Most-significant-first decimal expansion with explicit fuel (so that the
definition is structurally recursive and reduces inside the kernel).  With
fuel at least the number of digits of `n` this is the digit string of `n`,
empty for `n = 0`. -/
def toCharsAux : Nat → Nat → List Char
  | 0, _ => []
  | fuel + 1, n =>
    if n = 0 then [] else toCharsAux fuel (n / 10) ++ [digitChar (n % 10)]

/-- The decimal rendering of a `u64`, as emitted by `Display` for `u64`:
no sign, no leading zeros, `"0"` for zero. -/
def natToChars (n : Nat) : List Char :=
  if n = 0 then ['0'] else toCharsAux (n + 1) n

/-- `impl Display for Version` (main.rs lines 68-72):
`"{major}.{minor}.{patch}"`. -/
def Version.fmt (v : Version) : List Char :=
  natToChars v.major ++ '.' :: (natToChars v.minor ++ '.' :: natToChars v.patch)


/-- The subcommand (main.rs lines 8-13). -/
inductive Command where
  | patch
  | minor
  | major
deriving DecidableEq

/-- The parsed command line (main.rs lines 15-27). -/
structure Args where
  dry_run : Bool
  git : Bool
  command : Command
deriving DecidableEq

/-- An opaque operating-system or collaborator error (`std::io::Error`,
a toml error, a missing manifest field, ...), identified by a code so that
distinct concrete errors can be written down. -/
structure IOErr where
  code : Nat
deriving DecidableEq

/-- A top-level error of `main`: a collaborator failure or a version parse
failure. -/
inductive Err where
  | io (e : IOErr)
  | parse (e : ParseErr)
deriving DecidableEq

/-- The observable actions of the orchestrator: the repository-cleanliness
query, the manifest write (the call to `set_cargo_version`), the `cargo
check` consistency refresh, the three git mutations, and terminal prints. -/
inductive Event where
  | queryClean
  | setVersion (v : Version)
  | cargoCheck
  | gitAdd
  | gitCommit (msg : List Char)
  | gitTag (name : List Char)
  | print (msg : List Char)
deriving DecidableEq

/-- Whether an event is a terminal print (no external mutation, no query). -/
def Event.isPrint : Event → Bool
  | .print _ => true
  | _ => false

/-- Outcomes of every external collaborator the program touches, fixed ahead
of a run: the manifest version string (read + toml access collapsed), the
stdout of `git status --porcelain`, the manifest read-modify-write, and the
four subprocess spawns.  An `Except.error` models the corresponding
collaborator call failing at the process or I/O level. -/
structure World where
  versionStr : Except IOErr (List Char)
  gitStatusOut : Except IOErr (List Char)
  manifestSet : Except IOErr Unit
  cargoCheckRes : Except IOErr Unit
  gitAddRes : Except IOErr Unit
  gitCommitRes : Except IOErr Unit
  gitTagRes : Except IOErr Unit

/-- Rust whitespace characters relevant to `str::trim` on git output. -/
def isWhite (c : Char) : Bool :=
  c == ' ' || c == '\n' || c == '\t' || c == '\r'

/-- `str::trim`. -/
def trimChars (l : List Char) : List Char :=
  ((l.dropWhile isWhite).reverse.dropWhile isWhite).reverse

/-- `is_working_dir_clean` (main.rs lines 146-152): spawn
`git status --porcelain`; a spawn failure propagates via `?`; otherwise the
working directory is clean iff the trimmed stdout is empty. -/
def is_working_dir_clean (w : World) : List Event × Except IOErr Bool :=
  match w.gitStatusOut with
  | .error e => ([Event.queryClean], .error e)
  | .ok out => ([Event.queryClean], .ok (trimChars out).isEmpty)

/-- `get_cargo_version` (main.rs lines 101-117): read and parse the manifest
(collapsed into the `versionStr` collaborator outcome), then
`Version::from_str`. -/
def get_cargo_version (w : World) : Except Err Version :=
  match w.versionStr with
  | .error e => .error (.io e)
  | .ok s =>
    match Version.from_str s with
    | .error pe => .error (.parse pe)
    | .ok v => .ok v

/-- `set_cargo_version` (main.rs lines 120-143): read, edit and rewrite the
manifest (collapsed into `manifestSet`), then spawn `cargo check`; each
failure propagates via `?`.  The `setVersion` event marks the invocation of
the manifest-write collaborator, the `cargoCheck` event the spawn of the
consistency refresh (reached only after a successful write). -/
def set_cargo_version (w : World) (version_new : Version) :
    List Event × Except IOErr Unit :=
  match w.manifestSet with
  | .error e => ([Event.setVersion version_new], .error e)
  | .ok _ =>
    match w.cargoCheckRes with
    | .error e => ([Event.setVersion version_new, Event.cargoCheck], .error e)
    | .ok _ => ([Event.setVersion version_new, Event.cargoCheck], .ok ())

/-- The commit message and tag name `v{version}` (main.rs lines 163, 168). -/
def vName (v : Version) : List Char := 'v' :: v.fmt

/-- `commit_with_tag` (main.rs lines 155-172): spawn `git add`, `git commit
-m v<new>`, `git tag v<new>` in sequence; each spawn failure propagates via
`?`, stopping the sequence.  Each event is recorded at the spawn. -/
def commit_with_tag (w : World) (version : Version) :
    List Event × Except IOErr Unit :=
  match w.gitAddRes with
  | .error e => ([Event.gitAdd], .error e)
  | .ok _ =>
    match w.gitCommitRes with
    | .error e => ([Event.gitAdd, Event.gitCommit (vName version)], .error e)
    | .ok _ =>
      ([Event.gitAdd, Event.gitCommit (vName version), Event.gitTag (vName version)],
        match w.gitTagRes with
        | .error e => .error e
        | .ok _ => .ok ())

/-- The policy-stop message (main.rs line 181), rendered. -/
def dirtyMsg : List Char :=
  "Working directory doesn\x27t appear to be clean. Commit your changes first.".toList

/-- `"Promoting from {version} to {version_new}"` (main.rs line 191), rendered. -/
def promoteMsg (version version_new : Version) : List Char :=
  "Promoting from ".toList ++ version.fmt ++ " to ".toList ++ version_new.fmt

/-- The note printed when `--git` is set (main.rs line 193), rendered. -/
def gitNoteMsg : List Char :=
  "--git was included, will commit and tag this version".toList

/-- The dry-run notice (main.rs line 197), rendered. -/
def dryRunMsg : List Char :=
  "But this was a --dry-run. Not actually doing anything...".toList

/-- `"Wrote changes to {:?}"` with the fixed path (main.rs line 200), rendered. -/
def wroteMsg : List Char :=
  "Wrote changes to \x22Cargo.toml\x22".toList

/-- The `match &args.command` of `main` (main.rs lines 185-189). -/
def bumpOf (c : Command) (v : Version) : Version :=
  match c with
  | .patch => v.patch_version
  | .minor => v.minor_version
  | .major => v.major_version

/-- The tail of `main` after the cleanliness guard (main.rs lines 185-208):
compute the new version, report, then either stop (dry run) or write the
manifest and optionally commit and tag.  `t1` is the trace accumulated by
the guard. -/
def mainCont (args : Args) (w : World) (version : Version) (t1 : List Event) :
    List Event × Except Err Unit :=
  let version_new := bumpOf args.command version
  let t2 := t1 ++ [Event.print (promoteMsg version version_new)]
    ++ (if args.git then [Event.print gitNoteMsg] else [])
  match args.dry_run with
  | true => (t2 ++ [Event.print dryRunMsg], .ok ())
  | false =>
    match set_cargo_version w version_new with
    | (t3, .error e) => (t2 ++ t3, .error (.io e))
    | (t3, .ok _) =>
      let t4 := t2 ++ t3 ++ [Event.print wroteMsg]
      if args.git then
        match commit_with_tag w version_new with
        | (t5, .error e) => (t4 ++ t5, .error (.io e))
        | (t5, .ok _) => (t4 ++ t5, .ok ())
      else (t4, .ok ())

/-- `main` (main.rs lines 174-209): load and parse the manifest version;
unless `--dry-run`, query cleanliness and stop with success on a dirty tree
(`!args.dry_run && !is_working_dir_clean()?`, short-circuiting); then
continue with `mainCont`.  Returns the event trace and the process result;
`.ok ()` is exit code 0, `.error` a nonzero exit. -/
def mainRun (args : Args) (w : World) : List Event × Except Err Unit :=
  match get_cargo_version w with
  | .error e => ([], .error e)
  | .ok version =>
    if args.dry_run then mainCont args w version []
    else
      match is_working_dir_clean w with
      | (t1, .error e) => (t1, .error (.io e))
      | (t1, .ok true) => mainCont args w version t1
      | (t1, .ok false) => (t1 ++ [Event.print dirtyMsg], .ok ())


/-- A run environment with a dirty working tree and every collaborator healthy. -/
def wDirty : World :=
  ⟨.ok ("1.2.3".toList), .ok (" M src/main.rs".toList), .ok (), .ok (), .ok (),
    .ok (), .ok ()⟩

/-- A run environment where every collaborator succeeds and the tree is clean. -/
def wAllOk : World :=
  ⟨.ok ("1.2.3".toList), .ok [], .ok (), .ok (), .ok (), .ok (), .ok ()⟩

/-- A run environment where the status query, the consistency refresh and the
stage spawn each fail. -/
def wErrStatus : World :=
  ⟨.ok ("1.2.3".toList), .error ⟨7⟩, .ok (), .error ⟨8⟩, .error ⟨9⟩, .ok (), .ok ()⟩

/-- A run environment where only the commit spawn fails. -/
def wErrCommit : World :=
  ⟨.ok ("1.2.3".toList), .ok [], .ok (), .ok (), .ok (), .error ⟨10⟩, .ok ()⟩

/-- A run environment where only the tag spawn fails. -/
def wErrTag : World :=
  ⟨.ok ("1.2.3".toList), .ok [], .ok (), .ok (), .ok (), .ok (), .error ⟨11⟩⟩

theorem digitChar_spec (d : Nat) (h : d < 10) :
    charDigit (digitChar d) = some d ∧ 48 ≤ (digitChar d).toNat ∧
      (digitChar d).toNat ≤ 57 ∧ digitChar d ≠ '.' ∧ digitChar d ≠ '+' := by
  interval_cases d <;> decide

theorem digitsVal_append (l1 l2 : List Char) (acc : Nat) :
    digitsVal (l1 ++ l2) acc =
      match digitsVal l1 acc with
      | some v => digitsVal l2 v
      | none => none := by
  induction l1 generalizing acc with
  | nil => rfl
  | cons c rest ih =>
    simp only [List.cons_append, digitsVal]
    cases charDigit c <;> simp [ih]

theorem toCharsAux_mem (f : Nat) :
    ∀ n c, c ∈ toCharsAux f n → ∃ d, d < 10 ∧ c = digitChar d := by
  induction f with
  | zero => intro n c h; simp [toCharsAux] at h
  | succ f ih =>
    intro n c h
    by_cases hn : n = 0
    · simp [toCharsAux, hn] at h
    · simp only [toCharsAux, if_neg hn, List.mem_append, List.mem_singleton] at h
      rcases h with h | h
      · exact ih _ _ h
      · exact ⟨n % 10, Nat.mod_lt _ (by norm_num), h⟩

theorem digitsVal_toCharsAux (f : Nat) :
    ∀ n acc, n < 10 ^ f →
      digitsVal (toCharsAux f n) acc =
        some (acc * 10 ^ (toCharsAux f n).length + n) := by
  induction f with
  | zero =>
    intro n acc h
    interval_cases n
    simp [toCharsAux, digitsVal]
  | succ f ih =>
    intro n acc h
    by_cases hn : n = 0
    · subst hn; simp [toCharsAux, digitsVal]
    · have hdiv : n / 10 < 10 ^ f := by
        rw [Nat.div_lt_iff_lt_mul (by norm_num)]
        calc n < 10 ^ (f + 1) := h
          _ = 10 ^ f * 10 := by ring
      have h10 : n % 10 < 10 := Nat.mod_lt _ (by norm_num)
      simp only [toCharsAux, if_neg hn]
      rw [digitsVal_append, ih _ acc hdiv]
      simp only [digitsVal, (digitChar_spec _ h10).1, List.length_append,
        List.length_singleton]
      congr 1
      rw [pow_succ, ← mul_assoc]
      generalize acc * 10 ^ (toCharsAux f (n / 10)).length = m
      omega

theorem natToChars_mem (n : Nat) :
    ∀ c ∈ natToChars n, 48 ≤ c.toNat ∧ c.toNat ≤ 57 := by
  intro c hc
  by_cases hn : n = 0
  · simp [natToChars, hn] at hc
    subst hc; decide
  · simp only [natToChars, if_neg hn] at hc
    obtain ⟨d, hd, rfl⟩ := toCharsAux_mem _ _ _ hc
    exact ⟨(digitChar_spec d hd).2.1, (digitChar_spec d hd).2.2.1⟩

theorem natToChars_ne_dot (n : Nat) : ∀ c ∈ natToChars n, c ≠ '.' := by
  intro c hc heq
  have := natToChars_mem n c hc
  rw [heq] at this
  simp at this

theorem natToChars_ne_nil (n : Nat) : natToChars n ≠ [] := by
  by_cases hn : n = 0
  · simp [natToChars, hn]
  · simp only [natToChars, if_neg hn, toCharsAux, if_neg hn]
    simp

theorem parseU64_natToChars (n : Nat) (h : n < U64) :
    parseU64 (natToChars n) = some n := by
  by_cases hn : n = 0
  · subst hn; decide
  · have hpow : n < 10 ^ (n + 1) :=
      lt_of_lt_of_le (Nat.lt_pow_self (by norm_num) n)
        (Nat.pow_le_pow_right (by norm_num) (Nat.le_succ n))
    have hval : digitsVal (natToChars n) 0 = some n := by
      have := digitsVal_toCharsAux (n + 1) n 0 hpow
      simp only [natToChars, if_neg hn]
      simpa using this
    rcases hT : natToChars n with _ | ⟨c, rest⟩
    · exact absurd hT (natToChars_ne_nil n)
    · have hcmem : c ∈ natToChars n := by rw [hT]; simp
      have hc48 := (natToChars_mem n c hcmem).1
      have hcplus : c ≠ '+' := by
        intro heq; rw [heq] at hc48; simp at hc48
      rw [hT] at hval
      simp only [parseU64, stripPlus, if_neg hcplus, hval, if_pos h]

theorem splitDot_ne_nil (s : List Char) : splitDot s ≠ [] := by
  induction s with
  | nil => simp [splitDot]
  | cons c rest ih =>
    simp only [splitDot]
    by_cases hc : c = '.'
    · simp [hc]
    · simp only [if_neg hc]
      cases h : splitDot rest <;> simp

theorem splitDot_no_dot (s : List Char) (h : ∀ c ∈ s, c ≠ '.') :
    splitDot s = [s] := by
  induction s with
  | nil => rfl
  | cons c rest ih =>
    have hc : c ≠ '.' := h c (by simp)
    have hrest := ih (fun x hx => h x (by simp [hx]))
    simp [splitDot, if_neg hc, hrest]

theorem splitDot_append (s t : List Char) (h : ∀ c ∈ s, c ≠ '.') :
    splitDot (s ++ '.' :: t) = s :: splitDot t := by
  induction s with
  | nil => simp [splitDot]
  | cons c rest ih =>
    have hc : c ≠ '.' := h c (by simp)
    have hrest := ih (fun x hx => h x (by simp [hx]))
    simp [splitDot, if_neg hc, hrest]

theorem splitDot_fmt (v : Version) :
    splitDot v.fmt = [natToChars v.major, natToChars v.minor, natToChars v.patch] := by
  rw [Version.fmt, splitDot_append _ _ (natToChars_ne_dot _),
    splitDot_append _ _ (natToChars_ne_dot _),
    splitDot_no_dot _ (natToChars_ne_dot _)]

theorem from_str_fmt (a b c : Nat) (ha : a < U64) (hb : b < U64) (hc : c < U64) :
    Version.from_str (Version.fmt ⟨a, b, c⟩) = .ok ⟨a, b, c⟩ := by
  have hsp := splitDot_fmt ⟨a, b, c⟩
  simp only [Version.from_str, hsp, parseU64_natToChars _ ha,
    parseU64_natToChars _ hb, parseU64_natToChars _ hc]

/-- Claim C2 (amended): acceptance characterization of Version::from_str.
Parsing succeeds iff splitting on the dot character yields at least three
segments whose first three each parse as u64 (segments beyond the third are
ignored); on success the Version is built from the first three segments; every
failure names the failing component and whether it was missing or not a valid
u64. -/
theorem C2_parse_spec (s : List Char) :
    ((∃ v, Version.from_str s = .ok v) ↔
      ∃ p1 p2 p3 rest a b c, splitDot s = p1 :: p2 :: p3 :: rest ∧
        parseU64 p1 = some a ∧ parseU64 p2 = some b ∧ parseU64 p3 = some c) ∧
    (∀ p1 p2 p3 rest a b c, splitDot s = p1 :: p2 :: p3 :: rest →
      parseU64 p1 = some a → parseU64 p2 = some b → parseU64 p3 = some c →
      Version.from_str s = .ok ⟨a, b, c⟩) ∧
    (∀ p1 rest, splitDot s = p1 :: rest → parseU64 p1 = none →
      Version.from_str s = .error (.badInt .major)) ∧
    (∀ p1 a, splitDot s = [p1] → parseU64 p1 = some a →
      Version.from_str s = .error (.missing .minor)) ∧
    (∀ p1 p2 rest a, splitDot s = p1 :: p2 :: rest → parseU64 p1 = some a →
      parseU64 p2 = none → Version.from_str s = .error (.badInt .minor)) ∧
    (∀ p1 p2 a b, splitDot s = [p1, p2] → parseU64 p1 = some a →
      parseU64 p2 = some b → Version.from_str s = .error (.missing .patch)) ∧
    (∀ p1 p2 p3 rest a b, splitDot s = p1 :: p2 :: p3 :: rest → parseU64 p1 = some a →
      parseU64 p2 = some b → parseU64 p3 = none →
      Version.from_str s = .error (.badInt .patch)) := by
  refine ⟨⟨?_, ?_⟩, ?_, ?_, ?_, ?_, ?_, ?_⟩
  · rintro ⟨v, hv⟩
    rcases hsp : splitDot s with _ | ⟨p1, rest1⟩
    · exact absurd hsp (splitDot_ne_nil s)
    simp only [Version.from_str, hsp] at hv
    rcases hp1 : parseU64 p1 with _ | a
    · simp [hp1] at hv
    simp only [hp1] at hv
    rcases rest1 with _ | ⟨p2, rest2⟩
    · simp at hv
    rcases hp2 : parseU64 p2 with _ | b
    · simp [hp2] at hv
    simp only [hp2] at hv
    rcases rest2 with _ | ⟨p3, rest3⟩
    · simp at hv
    rcases hp3 : parseU64 p3 with _ | c
    · simp [hp3] at hv
    exact ⟨p1, p2, p3, rest3, a, b, c, rfl, hp1, hp2, hp3⟩
  · rintro ⟨p1, p2, p3, rest, a, b, c, hsp, h1, h2, h3⟩
    exact ⟨⟨a, b, c⟩, by simp only [Version.from_str, hsp, h1, h2, h3]⟩
  · intro p1 p2 p3 rest a b c hsp h1 h2 h3
    simp only [Version.from_str, hsp, h1, h2, h3]
  · intro p1 rest hsp h1
    simp only [Version.from_str, hsp, h1]
  · intro p1 a hsp h1
    simp only [Version.from_str, hsp, h1]
  · intro p1 p2 rest a hsp h1 h2
    simp only [Version.from_str, hsp, h1, h2]
  · intro p1 p2 a b hsp h1 h2
    simp only [Version.from_str, hsp, h1, h2]
  · intro p1 p2 p3 rest a b hsp h1 h2 h3
    simp only [Version.from_str, hsp, h1, h2, h3]

/-- Claim C2 as stated fails: the input 1.2.3.4 splits into four segments,
yet Version::from_str accepts it, returning version 1.2.3. -/
theorem C2_counterexample :
    (splitDot ("1.2.3.4".toList)).length = 4 ∧
    Version.from_str ("1.2.3.4".toList) = .ok ⟨1, 2, 3⟩ :=
  ⟨rfl, rfl⟩

/-- Witness for the amended C2 characterization at input 1.2.3. -/
theorem C2_parse_spec_witness :
    Version.from_str ("1.2.3".toList) = .ok ⟨1, 2, 3⟩ :=
  (C2_parse_spec ("1.2.3".toList)).2.1 ['1'] ['2'] ['3'] [] 1 2 3 rfl rfl rfl rfl

/-- Claim C1 (amended): the three bump rules hold exactly whenever the
incremented component stays below the u64 width: BumpPatch gives (a, b, c+1),
BumpMinor gives (a, b+1, 0) for any c, BumpMajor gives (a+1, 0, 0) for any
b, c.  At the width boundary the incremented component wraps instead. -/
theorem C1_bump_rules (a b c : Nat) :
    (c + 1 < U64 → Version.patch_version ⟨a, b, c⟩ = ⟨a, b, c + 1⟩) ∧
    (b + 1 < U64 → Version.minor_version ⟨a, b, c⟩ = ⟨a, b + 1, 0⟩) ∧
    (a + 1 < U64 → Version.major_version ⟨a, b, c⟩ = ⟨a + 1, 0, 0⟩) := by
  refine ⟨fun h => ?_, fun h => ?_, fun h => ?_⟩ <;>
    simp [Version.patch_version, Version.minor_version, Version.major_version,
      Nat.mod_eq_of_lt h]

/-- Witness for the amended C1 bump rules at version 1.1.1. -/
theorem C1_bump_rules_witness :
    Version.patch_version ⟨1, 1, 1⟩ = ⟨1, 1, 2⟩ ∧
    Version.minor_version ⟨1, 1, 1⟩ = ⟨1, 2, 0⟩ ∧
    Version.major_version ⟨1, 1, 1⟩ = ⟨2, 0, 0⟩ :=
  ⟨(C1_bump_rules 1 1 1).1 (by decide), (C1_bump_rules 1 1 1).2.1 (by decide),
    (C1_bump_rules 1 1 1).2.2 (by decide)⟩

/-- Claim C1 as stated fails at the u64 boundary: bumping patch at
patch = 2^64 - 1 does not produce patch + 1 (the unchecked addition wraps). -/
theorem C1_counterexample :
    Version.patch_version ⟨0, 0, U64 - 1⟩ ≠ ⟨0, 0, (U64 - 1) + 1⟩ := by
  decide

/-- Claim C6 fails on the code (code bug per the spec): at the u64 maximum
each bump operation silently wraps the incremented component to 0; no error
result exists in the bump API. -/
theorem C6_overflow_wrap :
    Version.patch_version ⟨0, 0, U64 - 1⟩ = ⟨0, 0, 0⟩ ∧
    Version.minor_version ⟨0, U64 - 1, 0⟩ = ⟨0, 0, 0⟩ ∧
    Version.major_version ⟨U64 - 1, 0, 0⟩ = ⟨0, 0, 0⟩ := by
  decide

/-- Claim C9 (confirmed): for all u64-representable a, b, c,
Parse(Format(Version a b c)) = Version a b c. -/
theorem C9_format_parse (a b c : Nat) (ha : a < U64) (hb : b < U64) (hc : c < U64) :
    Version.from_str (Version.fmt ⟨a, b, c⟩) = .ok ⟨a, b, c⟩ :=
  from_str_fmt a b c ha hb hc

/-- Witness for C9 at version 12.0.345. -/
theorem C9_format_parse_witness :
    Version.from_str (Version.fmt ⟨12, 0, 345⟩) = .ok ⟨12, 0, 345⟩ :=
  C9_format_parse 12 0 345 (by decide) (by decide) (by decide)

/-- Claim C8 (amended): Format(Parse(s)) = s holds for every input whose
three dot-separated segments are canonical decimal renderings of u64 values
(no sign, no leading zeros), i.e. for every s in the image of Format. -/
theorem C8_roundtrip_canonical (s : List Char)
    (h : ∃ a b c, a < U64 ∧ b < U64 ∧ c < U64 ∧ s = Version.fmt ⟨a, b, c⟩) :
    ∃ v, Version.from_str s = .ok v ∧ Version.fmt v = s := by
  obtain ⟨a, b, c, ha, hb, hc, rfl⟩ := h
  exact ⟨⟨a, b, c⟩, from_str_fmt a b c ha hb hc, rfl⟩

/-- Witness for the amended C8 roundtrip at input 1.2.3. -/
theorem C8_roundtrip_canonical_witness :
    ∃ v, Version.from_str ("1.2.3".toList) = .ok v ∧
      Version.fmt v = "1.2.3".toList :=
  C8_roundtrip_canonical ("1.2.3".toList)
    ⟨1, 2, 3, by decide, by decide, by decide, rfl⟩

/-- Claim C8 as stated fails: the input 01.2.3 is well-formed in the sense
of the claim (three dot-separated segments, each parsing as a non-negative
integer), but Format(Parse(01.2.3)) = 1.2.3. -/
theorem C8_counterexample :
    splitDot ("01.2.3".toList) = [['0', '1'], ['2'], ['3']] ∧
    parseU64 ['0', '1'] = some 1 ∧ parseU64 ['2'] = some 2 ∧
    parseU64 ['3'] = some 3 ∧
    Version.from_str ("01.2.3".toList) = .ok ⟨1, 2, 3⟩ ∧
    Version.fmt ⟨1, 2, 3⟩ ≠ "01.2.3".toList := by
  refine ⟨rfl, by decide, by decide, by decide, rfl, by decide⟩

/-- Claim C10 (confirmed): splitting any string on the dot character yields
at least one segment, so the missing-major error branch of Version::from_str
is unreachable, and parsing the empty string fails with a major
integer-parse error. -/
theorem C10_major_unreachable :
    (∀ s : List Char, splitDot s ≠ []) ∧
    (∀ s : List Char, Version.from_str s ≠ .error (.missing .major)) ∧
    Version.from_str [] = .error (.badInt .major) := by
  refine ⟨splitDot_ne_nil, fun s => ?_, rfl⟩
  rcases hsp : splitDot s with _ | ⟨p1, rest1⟩
  · exact absurd hsp (splitDot_ne_nil s)
  simp only [Version.from_str, hsp]
  rcases h1 : parseU64 p1 with _ | a
  · simp
  simp only []
  rcases rest1 with _ | ⟨p2, rest2⟩
  · simp
  rcases h2 : parseU64 p2 with _ | b
  · simp [h2]
  simp only [h2]
  rcases rest2 with _ | ⟨p3, rest3⟩
  · simp
  rcases h3 : parseU64 p3 with _ | c <;> simp [h3]

/-- Witness for C10 at input x.y. -/
theorem C10_major_unreachable_witness :
    Version.from_str ("x.y".toList) ≠ .error (.missing .major) :=
  C10_major_unreachable.2.1 ("x.y".toList)

/-- Claim C3 (confirmed): with dry-run unset, a readable and parsable
manifest version, and git status reporting a dirty tree, main performs only
the cleanliness query, prints the policy-stop message, and returns success
(exit code 0) with no bump reported, no manifest write, and no stage, commit
or tag. -/
theorem C3_policy_stop (g : Bool) (cmd : Command) (w : World) (s : List Char)
    (v : Version) (out : List Char)
    (hs : w.versionStr = .ok s) (hv : Version.from_str s = .ok v)
    (hout : w.gitStatusOut = .ok out) (hdirty : (trimChars out).isEmpty = false) :
    mainRun ⟨false, g, cmd⟩ w = ([Event.queryClean, Event.print dirtyMsg], .ok ()) := by
  simp [mainRun, get_cargo_version, hs, hv, is_working_dir_clean, hout, hdirty]

/-- Witness for the C3 policy stop in a concrete dirty environment. -/
theorem C3_policy_stop_witness :
    mainRun ⟨false, true, .minor⟩ wDirty =
      ([Event.queryClean, Event.print dirtyMsg], .ok ()) :=
  C3_policy_stop true .minor wDirty ("1.2.3".toList) ⟨1, 2, 3⟩
    (" M src/main.rs".toList) rfl rfl rfl rfl

/-- Claim C4 (confirmed): with dry-run set, for every command, git flag and
environment, every event of the run is a terminal print: the cleanliness
query is skipped and the manifest-write, consistency-refresh, stage, commit
and tag collaborators are never invoked. -/
theorem C4_dry_run_pure (g : Bool) (cmd : Command) (w : World) :
    ((mainRun ⟨true, g, cmd⟩ w).1).all Event.isPrint = true := by
  rcases hg : get_cargo_version w with e | v
  · simp [mainRun, hg]
  · cases g <;> simp [mainRun, hg, mainCont, Event.isPrint]

/-- Claim C5 (confirmed): with git set, dry-run unset, a clean tree, a
successful manifest write and consistency refresh, and stage and commit
spawns succeeding, the run performs stage, then commit with message v<new>,
then tag with that same name, each exactly once and in that order, after the
manifest write and with nothing following the tag. -/
theorem C5_git_sequence (cmd : Command) (w : World) (s : List Char) (v : Version)
    (out : List Char)
    (hs : w.versionStr = .ok s) (hv : Version.from_str s = .ok v)
    (hout : w.gitStatusOut = .ok out) (hclean : (trimChars out).isEmpty = true)
    (hset : w.manifestSet = .ok ()) (hchk : w.cargoCheckRes = .ok ())
    (hadd : w.gitAddRes = .ok ()) (hcommit : w.gitCommitRes = .ok ()) :
    (mainRun ⟨false, true, cmd⟩ w).1 =
      [Event.queryClean,
       Event.print (promoteMsg v (bumpOf cmd v)),
       Event.print gitNoteMsg,
       Event.setVersion (bumpOf cmd v),
       Event.cargoCheck,
       Event.print wroteMsg,
       Event.gitAdd,
       Event.gitCommit (vName (bumpOf cmd v)),
       Event.gitTag (vName (bumpOf cmd v))] := by
  rcases htag : w.gitTagRes with e | u <;>
    simp [mainRun, get_cargo_version, hs, hv, is_working_dir_clean, hout, hclean,
      mainCont, set_cargo_version, hset, hchk, commit_with_tag, hadd, hcommit, htag]

/-- Witness for the C5 sequence in a concrete all-healthy environment. -/
theorem C5_git_sequence_witness :
    (mainRun ⟨false, true, .patch⟩ wAllOk).1 =
      [Event.queryClean,
       Event.print (promoteMsg ⟨1, 2, 3⟩ (bumpOf .patch ⟨1, 2, 3⟩)),
       Event.print gitNoteMsg,
       Event.setVersion (bumpOf .patch ⟨1, 2, 3⟩),
       Event.cargoCheck,
       Event.print wroteMsg,
       Event.gitAdd,
       Event.gitCommit (vName (bumpOf .patch ⟨1, 2, 3⟩)),
       Event.gitTag (vName (bumpOf .patch ⟨1, 2, 3⟩))] :=
  C5_git_sequence .patch wAllOk ("1.2.3".toList) ⟨1, 2, 3⟩ [] rfl rfl rfl rfl rfl
    rfl rfl rfl

/-- Claim C7 (confirmed): a process-level failure of any externally invoked
subprocess propagates as an error to the caller: the git status query, the
cargo check consistency refresh (after a successful write), and each of the
stage, commit and tag spawns. -/
theorem C7_subprocess_errors (w : World) (v : Version) (e : IOErr) :
    (w.gitStatusOut = .error e → (is_working_dir_clean w).2 = .error e) ∧
    (w.manifestSet = .ok () → w.cargoCheckRes = .error e →
      (set_cargo_version w v).2 = .error e) ∧
    (w.gitAddRes = .error e → (commit_with_tag w v).2 = .error e) ∧
    (w.gitAddRes = .ok () → w.gitCommitRes = .error e →
      (commit_with_tag w v).2 = .error e) ∧
    (w.gitAddRes = .ok () → w.gitCommitRes = .ok () → w.gitTagRes = .error e →
      (commit_with_tag w v).2 = .error e) := by
  refine ⟨fun h => ?_, fun h1 h2 => ?_, fun h => ?_, fun h1 h2 => ?_,
    fun h1 h2 h3 => ?_⟩ <;>
    simp [is_working_dir_clean, set_cargo_version, commit_with_tag, *]

/-- Witness for C7 propagation at concrete failing environments. -/
theorem C7_subprocess_errors_witness :
    (is_working_dir_clean wErrStatus).2 = .error ⟨7⟩ ∧
    (set_cargo_version wErrStatus ⟨1, 2, 4⟩).2 = .error ⟨8⟩ ∧
    (commit_with_tag wErrStatus ⟨1, 2, 4⟩).2 = .error ⟨9⟩ ∧
    (commit_with_tag wErrCommit ⟨1, 2, 4⟩).2 = .error ⟨10⟩ ∧
    (commit_with_tag wErrTag ⟨1, 2, 4⟩).2 = .error ⟨11⟩ :=
  ⟨(C7_subprocess_errors wErrStatus ⟨1, 2, 4⟩ ⟨7⟩).1 rfl,
    (C7_subprocess_errors wErrStatus ⟨1, 2, 4⟩ ⟨8⟩).2.1 rfl rfl,
    (C7_subprocess_errors wErrStatus ⟨1, 2, 4⟩ ⟨9⟩).2.2.1 rfl,
    (C7_subprocess_errors wErrCommit ⟨1, 2, 4⟩ ⟨10⟩).2.2.2.1 rfl rfl,
    (C7_subprocess_errors wErrTag ⟨1, 2, 4⟩ ⟨11⟩).2.2.2.2 rfl rfl rfl⟩
